import Mathlib

/-!
Verification of the mixr_client repository's specification against its code.

The development shallowly embeds the parts of the TypeScript sources that the
claims concern:

* `src/stores/recipeStore.ts` — the zustand recipe cache (`setRecipe`,
  `setRecipes`, `getRecipe`, `hasRecipe`, `clear`) together with the custom
  JSON-storage replacer/reviver used by the persist middleware;
* `src/utils/helpers.ts` — `buildUrl`, `createHeaders`, `handleApiError`;
* `src/network/MixrClient.ts` — the client constructor overloads, the header
  computation of every operation and the response unwrapping (represented by
  `getRecipeById`);
* `src/network/FetchNetworkClient.ts` — `request`, the fetch adapter.

JavaScript `Map` objects are embedded as insertion-ordered association lists
with unique keys, JSON values as an inductive `Json` type, and JavaScript
exceptions as explicit `Except`/sum types.
-/

/-! ## Entity data model (src/types.ts) -/

/-- Embedding of the `Mood` interface from `src/types.ts`. -/
structure Mood where
  id : Int
  emoji : String
  name : String
  description : String
  exampleDrinks : String
  imageName : Option String
  createdAt : String
deriving DecidableEq, Repr

/-- Embedding of the `RecipeIngredient` interface from `src/types.ts`. -/
structure RecipeIngredient where
  id : Int
  name : String
  icon : Option String
  amount : String
deriving DecidableEq, Repr

/-- Embedding of the `RecipeEquipment` interface from `src/types.ts`. -/
structure RecipeEquipment where
  id : Int
  name : String
  icon : Option String
deriving DecidableEq, Repr

/-- Embedding of the `Recipe` interface from `src/types.ts`.  The cache treats
`id` as the identity of the entity; the remaining fields are carried verbatim. -/
structure Recipe where
  id : Int
  name : String
  description : Option String
  moodId : Option Int
  createdAt : String
  mood : Option Mood
  ingredients : List RecipeIngredient
  steps : List String
  equipment : List RecipeEquipment
deriving DecidableEq, Repr

/-! ## JavaScript `Map<number, Recipe>` (insertion-ordered, unique keys) -/

/-- Embedding of `Map.prototype.set`: when the key is already present its value is replaced
in place (a real JS `Map` has unique keys, so at most one entry matches);
otherwise the new entry is appended, preserving insertion order. -/
def mapSet (m : List (Int × Recipe)) (k : Int) (v : Recipe) : List (Int × Recipe) :=
  if m.any (fun e => e.1 = k) then
    m.map (fun e => if e.1 = k then (k, v) else e)
  else
    m ++ [(k, v)]

/-- Embedding of `Map.prototype.get`: the value stored under `k`, or `undefined` (`none`). -/
def mapGet (m : List (Int × Recipe)) (k : Int) : Option Recipe :=
  (m.find? (fun e => e.1 = k)).map (fun e => e.2)

/-- Embedding of `Map.prototype.has`. -/
def mapHas (m : List (Int × Recipe)) (k : Int) : Bool :=
  m.any (fun e => e.1 = k)

/-! ## The recipe store (src/stores/recipeStore.ts) -/

/-- The data portion of the zustand store state: `recipes : Map<number, Recipe>`
and `recipeList : Recipe[]`. -/
structure RecipeStoreState where
  recipes : List (Int × Recipe)
  recipeList : List Recipe
deriving DecidableEq, Repr

/-- The store's initial state: `recipes: new Map(), recipeList: []`. -/
def initialStoreState : RecipeStoreState :=
  { recipes := [], recipeList := [] }

/-- Embedding of `Array.prototype.findIndex`, returning `none` instead of `-1`; the source
guards the result with `existingIndex >= 0`, which corresponds to the `some`
case here. -/
def jsFindIndex (p : Recipe → Bool) : List Recipe → Option Nat
  | [] => none
  | r :: rest => if p r then some 0 else (jsFindIndex p rest).map (fun i => i + 1)

/-- The `setRecipe` action from `recipeStore.ts`: writes `recipes.set(recipe.id, recipe)`
and updates `recipeList` — replacing in place at the first index whose entry has
the same id, otherwise `unshift`-ing the recipe to the front. -/
def setRecipe (state : RecipeStoreState) (recipe : Recipe) : RecipeStoreState :=
  match jsFindIndex (fun r => r.id = recipe.id) state.recipeList with
  | some existingIndex =>
    { recipes := mapSet state.recipes recipe.id recipe
      recipeList := state.recipeList.set existingIndex recipe }
  | none =>
    { recipes := mapSet state.recipes recipe.id recipe
      recipeList := recipe :: state.recipeList }

/-- The `setRecipes` action from `recipeStore.ts`: every input recipe is written into the
map (`forEach` over the input, in order), and `recipeList` is replaced wholesale
by the input array. -/
def setRecipes (state : RecipeStoreState) (recipes : List Recipe) : RecipeStoreState :=
  { recipes := recipes.foldl (fun m r => mapSet m r.id r) state.recipes
    recipeList := recipes }

/-- The `getRecipe` read from `recipeStore.ts`: `get().recipes.get(id)` on a live state
whose `recipes` field is a real `Map`. -/
def getRecipe (state : RecipeStoreState) (id : Int) : Option Recipe :=
  mapGet state.recipes id

/-- The `hasRecipe` read from `recipeStore.ts`: `get().recipes.has(id)`. -/
def hasRecipe (state : RecipeStoreState) (id : Int) : Bool :=
  mapHas state.recipes id

/-- The `clear` action from `recipeStore.ts`: resets both views to empty. -/
def clearStore (_state : RecipeStoreState) : RecipeStoreState :=
  { recipes := [], recipeList := [] }

/-- One cache mutation, as named by the spec: `upsertOne` is `setRecipe`,
`upsertMany` is `setRecipes`, `clearAll` is `clear`. -/
inductive CacheOp where
  | upsertOne (r : Recipe)
  | upsertMany (rs : List Recipe)
  | clearAll
deriving DecidableEq, Repr

/-- Apply one cache mutation to a store state. -/
def applyOp (s : RecipeStoreState) : CacheOp → RecipeStoreState
  | .upsertOne r => setRecipe s r
  | .upsertMany rs => setRecipes s rs
  | .clearAll => clearStore s

/-- Run a sequence of cache mutations from the initially empty store. -/
def runOps (ops : List CacheOp) : RecipeStoreState :=
  ops.foldl applyOp initialStoreState

/-! ## Concrete recipes used as test inputs -/

/-- A recipe with id 1. -/
def rMojito : Recipe :=
  { id := 1, name := "Mojito", description := none, moodId := none,
    createdAt := "2024-01-01", mood := none, ingredients := [], steps := [],
    equipment := [] }

/-- A different recipe carrying the same id 1. -/
def rMojitoV2 : Recipe :=
  { id := 1, name := "Mojito v2", description := none, moodId := none,
    createdAt := "2024-01-02", mood := none, ingredients := [], steps := [],
    equipment := [] }

/-- A recipe with id 2. -/
def rMargarita : Recipe :=
  { id := 2, name := "Margarita", description := none, moodId := none,
    createdAt := "2024-01-03", mood := none, ingredients := [], steps := [],
    equipment := [] }

/-! ## JSON values and the persist middleware's replacer/reviver
(src/stores/recipeStore.ts, createJSONStorage options) -/

/-- Plain JSON values, the output of `JSON.stringify` structure-wise.  Numbers
are restricted to integers: every number occurring in persisted cache states is
an entity id or the schema version. -/
inductive Json where
  | null
  | bool (b : Bool)
  | num (n : Int)
  | str (s : String)
  | arr (items : List Json)
  | obj (fields : List (String × Json))
deriving Repr

/-- JavaScript values produced by `JSON.parse` with the store's reviver: plain
JSON values plus `Map` objects with number keys, which the reviver rebuilds from
entry arrays. -/
inductive JVal where
  | null
  | bool (b : Bool)
  | num (n : Int)
  | str (s : String)
  | arr (items : List JVal)
  | obj (fields : List (String × JVal))
  | map (entries : List (Int × JVal))
deriving Repr

/-- Embedding of `Array.isArray` on a revived value. -/
def isArrVal : JVal → Bool
  | .arr _ => true
  | _ => false

/-- The reviver's `isMapEntries` check and `Map` construction in one pass:
`some entries` exactly when every item is an array of length 2 whose first
component is a number (`typeof item[0] === 'number'`). -/
def toEntries : List JVal → Option (List (Int × JVal))
  | [] => some []
  | .arr [.num k, v] :: rest => (toEntries rest).map (fun es => (k, v) :: es)
  | _ => none

/-- The reviver's treatment of an array value (children already revived): only
a non-empty array whose first element is itself an array is tested with
`isMapEntries`; when the test passes a `Map` is built, otherwise the array is
returned unchanged.  In particular the empty array is never turned into a
`Map`. -/
def reviveArr (ys : List JVal) : JVal :=
  match ys with
  | [] => .arr []
  | y0 :: _ =>
    if isArrVal y0 then
      match toEntries ys with
      | some es => .map es
      | none => .arr ys
    else .arr ys

mutual

/-- Embedding of `JSON.parse(text, reviver)` with the store's reviver: the reviver runs
bottom-up on every parsed value; non-array values pass through unchanged and
arrays are handled by `reviveArr`. -/
def revive : Json → JVal
  | .null => .null
  | .bool b => .bool b
  | .num n => .num n
  | .str s => .str s
  | .arr items => reviveArr (reviveList items)
  | .obj fields => .obj (reviveFields fields)

/-- Revive every element of an array. -/
def reviveList : List Json → List JVal
  | [] => []
  | j :: rest => revive j :: reviveList rest

/-- Revive every field value of an object. -/
def reviveFields : List (String × Json) → List (String × JVal)
  | [] => []
  | f :: rest => (f.1, revive f.2) :: reviveFields rest

end

mutual

/-- The canonical embedding of plain JSON into revived values (a parse with the
store's reviver that performs no `Map` conversion anywhere). -/
def jsonToJVal : Json → JVal
  | .null => .null
  | .bool b => .bool b
  | .num n => .num n
  | .str s => .str s
  | .arr items => .arr (jsonToJValList items)
  | .obj fields => .obj (jsonToJValFields fields)

/-- Embed every element of an array. -/
def jsonToJValList : List Json → List JVal
  | [] => []
  | j :: rest => jsonToJVal j :: jsonToJValList rest

/-- Embed every field value of an object. -/
def jsonToJValFields : List (String × Json) → List (String × JVal)
  | [] => []
  | f :: rest => (f.1, jsonToJVal f.2) :: jsonToJValFields rest

end

/-- JSON encoding of an optional string field (`Optional<string>` is
`string | null`). -/
def encodeOptStr : Option String → Json
  | none => .null
  | some s => .str s

/-- JSON encoding of a `Mood`. -/
def encodeMood (m : Mood) : Json :=
  .obj [("id", .num m.id), ("emoji", .str m.emoji), ("name", .str m.name),
        ("description", .str m.description),
        ("exampleDrinks", .str m.exampleDrinks),
        ("imageName", encodeOptStr m.imageName),
        ("createdAt", .str m.createdAt)]

/-- JSON encoding of a `RecipeIngredient`. -/
def encodeIngredient (i : RecipeIngredient) : Json :=
  .obj [("id", .num i.id), ("name", .str i.name), ("icon", encodeOptStr i.icon),
        ("amount", .str i.amount)]

/-- JSON encoding of a `RecipeEquipment`. -/
def encodeEquipment (e : RecipeEquipment) : Json :=
  .obj [("id", .num e.id), ("name", .str e.name), ("icon", encodeOptStr e.icon)]

/-- JSON encoding of a `Recipe`, field for field as `JSON.stringify` produces
it. -/
def encodeRecipe (r : Recipe) : Json :=
  .obj [("id", .num r.id), ("name", .str r.name),
        ("description", encodeOptStr r.description),
        ("moodId", match r.moodId with | none => .null | some n => .num n),
        ("createdAt", .str r.createdAt),
        ("mood", match r.mood with | none => .null | some m => encodeMood m),
        ("ingredients", .arr (r.ingredients.map encodeIngredient)),
        ("steps", .arr (r.steps.map Json.str)),
        ("equipment", .arr (r.equipment.map encodeEquipment))]

/-- The durable snapshot written by the persist middleware:
`JSON.stringify(\x7bstate, version\x7d, replacer)` with the store's replacer, which
turns the `recipes` Map into `Array.from(map.entries())`.  The replacer is
applied here during encoding: each map entry becomes the two-element array
`[key, value]`. -/
def encodeStoreState (s : RecipeStoreState) : Json :=
  .obj [("state", .obj [
           ("recipes", .arr (s.recipes.map (fun e => .arr [.num e.1, encodeRecipe e.2]))),
           ("recipeList", .arr (s.recipeList.map encodeRecipe))]),
        ("version", .num 0)]

/-- Field lookup on a revived object. -/
def jGetField (fields : List (String × JVal)) (k : String) : Option JVal :=
  ((fields.find? (fun f => f.1 = k)).map (fun f => f.2))

/-- The restore path of the persist middleware: parse the snapshot with the
reviver and project the `state` object's fields, which are then merged over the
store's initial state. -/
def restoredStateFields (snapshot : Json) : Option (List (String × JVal)) :=
  match revive snapshot with
  | .obj fields =>
    match jGetField fields "state" with
    | some (.obj sf) => some sf
    | _ => none
  | _ => none

/-- The `recipes` field of the store state restored from a durable snapshot. -/
def restoredRecipesField (snapshot : Json) : Option JVal :=
  (restoredStateFields snapshot).bind (fun sf => jGetField sf "recipes")

/-- The `recipeList` field of the store state restored from a durable
snapshot. -/
def restoredRecipeListField (snapshot : Json) : Option JVal :=
  (restoredStateFields snapshot).bind (fun sf => jGetField sf "recipeList")

/-- Evaluation of `state.recipes.get(id)` on a restored `recipes` value:
a method call on a real `Map` returns the stored value or `undefined`, while on
any other value (for example a plain array) the property `.get` is `undefined`
and the call throws a `TypeError`. -/
def jvalGet (recipes : JVal) (id : Int) : Except String (Option JVal) :=
  match recipes with
  | .map entries => .ok (((entries.find? (fun e => e.1 = id)).map (fun e => e.2)))
  | _ => .error "TypeError: state.recipes.get is not a function"

/-- Evaluation of `state.recipes.has(id)` on a restored `recipes` value, with the
same `TypeError` behaviour as `jvalGet` when the value is not a `Map`. -/
def jvalHas (recipes : JVal) (id : Int) : Except String Bool :=
  match recipes with
  | .map entries => .ok (entries.any (fun e => e.1 = id))
  | _ => .error "TypeError: state.recipes.has is not a function"

/-! ## Persisted store (zustand persist middleware around the recipe store) -/

/-- A store together with the durable storage slot keyed by
`mixr-recipe-storage` (`none` when no item is stored). -/
structure PersistedStore where
  mem : RecipeStoreState
  storage : Option Json

/-- Modelled from the spec: the persist middleware behaviour around the store
(the zustand `persist` wrapper is a library external to this repository's
sources).  Per the spec, the durable snapshot is "written synchronously after
every mutation": each mutation stores the serialized new state under the fixed
storage name. -/
def persistWrite (s : RecipeStoreState) : Option Json :=
  some (encodeStoreState s)

/-- The `clear()` operation as executed through the persisted store: the in-memory state is
reset by `clear` from `recipeStore.ts`, and the persist middleware then writes
the serialized new (empty) state to durable storage. -/
def doClear (ps : PersistedStore) : PersistedStore :=
  { mem := clearStore ps.mem, storage := persistWrite (clearStore ps.mem) }

/-! ## Helpers (src/utils/helpers.ts) -/

/-- The `buildUrl` helper from `helpers.ts`. -/
def buildUrl (baseUrl path : String) : String :=
  let base := if baseUrl.endsWith "/" then baseUrl.dropRight 1 else baseUrl
  let p := if path.startsWith "/" then path else "/" ++ path
  base ++ p

/-- JavaScript object spread over string-keyed records: keys of `base` keep
their positions (values overridden by a matching key of `extra`), and keys of
`extra` not present in `base` are appended. -/
def spreadRecord (base extra : List (String × String)) : List (String × String) :=
  base.map (fun e =>
    match extra.find? (fun e2 => e2.1 = e.1) with
    | some e2 => (e.1, e2.2)
    | none => e)
  ++ extra.filter (fun e2 => !(base.any (fun e => e.1 = e2.1)))

/-- The `createHeaders` helper from `helpers.ts`: the function declares a single
`additionalHeaders` parameter and spreads it over the default
`Content-Type: application/json` record. -/
def createHeaders (additionalHeaders : List (String × String)) : List (String × String) :=
  spreadRecord [("Content-Type", "application/json")] additionalHeaders

/-- The header computation performed by every `MixrClient` operation.  The
source calls `createHeaders(\x7b\x7d, this.authToken)`, but `createHeaders` declares
only the `additionalHeaders` parameter, so under JavaScript call semantics the
second argument is discarded by the callee.  The discarded token is kept as an
explicit unused argument here to record the call shape. -/
def mixrClientHeaders (_authToken : Option String) : List (String × String) :=
  createHeaders []

/-! ## Uniform network results (NetworkResponse from types, produced by
FetchNetworkClient) -/

/-- The uniform transport result consumed by every `MixrClient` operation:
`ok`, `status`, `statusText`, `headers`, `success`, optional parsed `data`,
optional transport `error`, and the wall-clock `timestamp` (carried opaquely
here). -/
structure NetworkResponse where
  ok : Bool
  status : Nat
  statusText : String
  headers : List (String × String)
  success : Bool
  data : Option JVal
  error : Option String
  timestamp : String
deriving Repr

/-- JavaScript truthiness of an optional string value (`undefined` and the
empty string are falsy). -/
def jsTruthyStr : Option String → Bool
  | none => false
  | some s => s ≠ ""

/-- JavaScript truthiness of a parsed JSON value. -/
def jvalTruthy : JVal → Bool
  | .null => false
  | .bool b => b
  | .num n => n ≠ 0
  | .str s => s ≠ ""
  | .arr _ => true
  | .obj _ => true
  | .map _ => true

/-- JavaScript truthiness of the optional `data` field. -/
def dataTruthy : Option JVal → Bool
  | none => false
  | some v => jvalTruthy v

/-- The server-provided error string of the payload, when the payload is an
object carrying a string `error` property — the guarded
`response.data && typeof response.data === 'object' && 'error' in response.data
&& typeof response.data.error === 'string'` access in `handleApiError`. -/
def dataErrorString : Option JVal → Option String
  | some (.obj fields) =>
    match jGetField fields "error" with
    | some (.str s) => some s
    | _ => none
  | _ => none

/-- The `handleApiError` helper from `helpers.ts`: the message of the returned `Error`.
The chain `response.error || data.error || generic` takes the first truthy
alternative, and the numeric status is always appended. -/
def handleApiError (response : NetworkResponse) (operation : String) : String :=
  let errorMessage :=
    if jsTruthyStr response.error then response.error.getD ""
    else if jsTruthyStr (dataErrorString response.data) then (dataErrorString response.data).getD ""
    else "Failed to " ++ operation
  errorMessage ++ " (status: " ++ toString response.status ++ ")"

/-- Evaluate whether an unwrapping computation returned normally. -/
def exceptIsOk : Except String JVal → Bool
  | .ok _ => true
  | .error _ => false

/-- The response unwrapping of `MixrClient.getRecipeById` (representative of
every operation): `if (!response.ok || !response.data) throw
handleApiError(response, 'get recipe by id'); return response.data;`. -/
def getRecipeByIdResult (response : NetworkResponse) : Except String JVal :=
  if response.ok && dataTruthy response.data then
    .ok (response.data.getD .null)
  else
    .error (handleApiError response "get recipe by id")

/-! ## FetchNetworkClient.request (src/network/FetchNetworkClient.ts) -/

/-- A JavaScript exception: either an `Error` instance carrying a message, or
any other thrown value. -/
inductive JsThrow where
  | errorObj (message : String)
  | nonError
deriving Repr

/-- The `error instanceof Error ? error.message : 'Network request failed'`
selection in the catch clause of `request`. -/
def throwMessage : JsThrow → String
  | .errorObj m => m
  | .nonError => "Network request failed"

/-- The behaviour of the underlying `fetch` call for one request: either an
HTTP response whose body handling (`response.json()`) returns parsed JSON or
throws, or a rejection of the `fetch` call itself. -/
inductive FetchBehavior where
  | resp (status : Nat) (statusText : String) (headers : List (String × String))
      (body : Except JsThrow JVal)
  | thrown (e : JsThrow)

/-- Embedding of `Response.ok` of the fetch API: true exactly when the status lies in the
2xx range. -/
def fetchOk (status : Nat) : Bool :=
  200 ≤ status && status ≤ 299

/-- The result built in the catch clause of `FetchNetworkClient.request`. -/
def fetchCatchResult (e : JsThrow) : NetworkResponse :=
  { ok := false, status := 500, statusText := "Internal Server Error",
    headers := [], success := false, data := none,
    error := some (throwMessage e), timestamp := "" }

/-- The method `FetchNetworkClient.request` as a function of the fetch behaviour: an
ordinary response is packaged into a `NetworkResponse` with `ok` taken from the
fetch response and no `error` field, while any exception thrown by `fetch` or by
the body handling is caught and converted by the catch clause.  The wall-clock
`timestamp` is abstracted as the empty string. -/
def fetchRequest (behavior : FetchBehavior) : NetworkResponse :=
  match behavior with
  | .thrown e => fetchCatchResult e
  | .resp status statusText hdrs body =>
    match body with
    | .error e => fetchCatchResult e
    | .ok data =>
      { ok := fetchOk status, status := status, statusText := statusText,
        headers := hdrs, success := fetchOk status, data := some data,
        error := none, timestamp := "" }

/-! ## MixrClient construction (src/network/MixrClient.ts) -/

/-- The `MixrClientConfig` options object, generic in the network client
type. -/
structure MixrClientConfig (N : Type) where
  baseUrl : String
  networkClient : N
  authToken : Option String

/-- The private state a constructed `MixrClient` holds. -/
structure MixrClientState (N : Type) where
  baseUrl : String
  networkClient : N
  authToken : Option String
deriving Repr

/-- The config-object constructor overload: `new MixrClient(config)` copies the
three fields out of the options object. -/
def mixrClientFromConfig {N : Type} (config : MixrClientConfig N) : MixrClientState N :=
  { baseUrl := config.baseUrl, networkClient := config.networkClient,
    authToken := config.authToken }

/-- The positional constructor overload:
`new MixrClient(baseUrl, networkClient, authToken)`. -/
def mixrClientPositional {N : Type} (baseUrl : String) (networkClient : N)
    (authToken : Option String) : MixrClientState N :=
  { baseUrl := baseUrl, networkClient := networkClient, authToken := authToken }

/-- The `setAuthToken` method: replaces or clears the stored token without reconstructing
the client. -/
def setAuthToken {N : Type} (c : MixrClientState N) (token : Option String) :
    MixrClientState N :=
  { c with authToken := token }

/-- The request issued by `getRecipeById`: target URL and headers (the request
has no body).  Every other operation builds its request the same way from the
same client state. -/
def getRecipeByIdRequest {N : Type} (c : MixrClientState N) (id : Int) :
    String × List (String × String) :=
  (buildUrl c.baseUrl ("/api/recipes/" ++ toString id), mixrClientHeaders c.authToken)

/-- A full `getRecipeById` call: the request it issues together with the
unwrapped (or thrown) result for a given transport response. -/
def getRecipeByIdOp {N : Type} (c : MixrClientState N) (id : Int)
    (response : NetworkResponse) :
    (String × List (String × String)) × Except String JVal :=
  (getRecipeByIdRequest c id, getRecipeByIdResult response)

/-! ## Concrete network inputs used as test data -/

/-- An `ok` response whose parsed body is the number `0` (a present but falsy
`data` field). -/
def respDataZero : NetworkResponse :=
  { ok := true, status := 200, statusText := "OK", headers := [],
    success := true, data := some (.num 0), error := none, timestamp := "" }

/-- An `ok` response carrying no `data` field at all. -/
def respNoData : NetworkResponse :=
  { ok := true, status := 200, statusText := "OK", headers := [],
    success := true, data := none, error := none, timestamp := "" }

/-- The transport-failure result produced by the catch clause of
`FetchNetworkClient.request` for a failed fetch. -/
def respNetworkFailure : NetworkResponse :=
  fetchCatchResult (.errorObj "Network request failed")

/-- A 404 response whose payload carries a server-provided error string. -/
def resp404 : NetworkResponse :=
  { ok := false, status := 404, statusText := "Not Found", headers := [],
    success := false, data := some (.obj [("error", .str "Resource not found")]),
    error := none, timestamp := "" }

/-! ## Spec-level predicates -/

/-- The spec's no-drift invariant: every entity occurring in the ordered list
has a `byId` entry under its id with identical content. -/
def StoreInv (s : RecipeStoreState) : Prop :=
  ∀ r ∈ s.recipeList, getRecipe s r.id = some r

/-- Strengthened invariant used for the preservation argument: no-drift
together with pairwise-distinct ids in the ordered list. -/
def StoreGood (s : RecipeStoreState) : Prop :=
  StoreInv s ∧ (s.recipeList.map (fun r => r.id)).Nodup

/-- Every `upsertMany` input occurring in the operation sequence has pairwise
distinct entity ids. -/
def ManyOpsNodup (ops : List CacheOp) : Prop :=
  ∀ rs, CacheOp.upsertMany rs ∈ ops → (rs.map (fun r => r.id)).Nodup

/-! ## Lemmas about the JS `Map` embedding -/

theorem find?_map_replace (m : List (Int × Recipe)) (k : Int) (v : Recipe)
    (hm : m.any (fun e => e.1 = k) = true) :
    (m.map (fun e => if e.1 = k then (k, v) else e)).find? (fun e => e.1 = k)
      = some (k, v) := by
  induction m with
  | nil => simp at hm
  | cons a t ih =>
    by_cases ha : a.1 = k
    · simp [ha, List.find?_cons]
    · have hm' : t.any (fun e => e.1 = k) = true := by
        simp only [List.any_cons, Bool.or_eq_true, decide_eq_true_eq] at hm
        exact hm.resolve_left ha
      rw [List.map_cons, if_neg ha, List.find?_cons_of_neg _ (by simpa using ha)]
      exact ih hm'

theorem find?_append_singleton (m : List (Int × Recipe)) (k : Int) (v : Recipe)
    (hm : m.any (fun e => e.1 = k) = false) :
    (m ++ [(k, v)]).find? (fun e => e.1 = k) = some (k, v) := by
  induction m with
  | nil => simp
  | cons a t ih =>
    simp only [List.any_cons, Bool.or_eq_false_iff] at hm
    rw [List.cons_append, List.find?_cons_of_neg _ (by simp [hm.1])]
    exact ih hm.2

theorem mapGet_mapSet_self (m : List (Int × Recipe)) (k : Int) (v : Recipe) :
    mapGet (mapSet m k v) k = some v := by
  unfold mapGet mapSet
  split
  · next hm => rw [find?_map_replace m k v hm]; rfl
  · next hm =>
      rw [find?_append_singleton m k v (by simp only [Bool.not_eq_true] at hm; exact hm)]
      rfl

theorem find?_map_replace_ne (m : List (Int × Recipe)) (k : Int) (v : Recipe)
    (k' : Int) (h : k' ≠ k) :
    (m.map (fun e => if e.1 = k then (k, v) else e)).find? (fun e => e.1 = k')
      = m.find? (fun e => e.1 = k') := by
  induction m with
  | nil => simp
  | cons a t ih =>
    by_cases ha : a.1 = k
    · have hk : ¬((k : Int) = k') := fun hkk => h hkk.symm
      have ha' : ¬(a.1 = k') := by rw [ha]; exact hk
      rw [List.map_cons, if_pos ha, List.find?_cons_of_neg _ (by simpa using hk),
        List.find?_cons_of_neg _ (by simpa using ha')]
      exact ih
    · rw [List.map_cons, if_neg ha]
      by_cases ha' : a.1 = k'
      · rw [List.find?_cons_of_pos _ (by simpa using ha'),
          List.find?_cons_of_pos _ (by simpa using ha')]
      · rw [List.find?_cons_of_neg _ (by simpa using ha'),
          List.find?_cons_of_neg _ (by simpa using ha')]
        exact ih

theorem mapGet_mapSet_ne (m : List (Int × Recipe)) (k : Int) (v : Recipe)
    (k' : Int) (h : k' ≠ k) :
    mapGet (mapSet m k v) k' = mapGet m k' := by
  unfold mapGet mapSet
  split
  · next hm => rw [find?_map_replace_ne m k v k' h]
  · next hm =>
      rw [List.find?_append]
      have hlast : ([((k : Int), v)].find? (fun e => e.1 = k')) = none := by
        simp only [List.find?_cons, List.find?_nil]
        have : ¬((k : Int) = k') := fun hkk => h hkk.symm
        simp [this]
      rw [hlast]
      cases m.find? (fun e => e.1 = k') <;> rfl

theorem mapHas_eq_isSome (m : List (Int × Recipe)) (k : Int) :
    mapHas m k = (mapGet m k).isSome := by
  induction m with
  | nil => rfl
  | cons a t ih =>
    by_cases ha : a.1 = k
    · simp [mapHas, mapGet, List.any_cons, ha, List.find?_cons_of_pos]
    · simp only [mapHas, mapGet, List.any_cons] at *
      rw [List.find?_cons_of_neg _ (by simpa using ha)]
      simpa [ha] using ih

/-! ## Lemmas about `setRecipes` and `jsFindIndex` -/

theorem foldl_mapSet_not_mem (rs : List Recipe) :
    ∀ (m : List (Int × Recipe)) (k : Int), (∀ r ∈ rs, r.id ≠ k) →
      mapGet (rs.foldl (fun m r => mapSet m r.id r) m) k = mapGet m k := by
  induction rs with
  | nil => intro m k _; rfl
  | cons a t ih =>
    intro m k h
    rw [List.foldl_cons, ih (mapSet m a.id a) k (fun r hr => h r (List.mem_cons_of_mem a hr)),
      mapGet_mapSet_ne m a.id a k (Ne.symm (h a (List.mem_cons_self a t)))]

theorem foldl_mapSet_nodup_mem (rs : List Recipe) :
    ∀ (m : List (Int × Recipe)), ((rs.map (fun r => r.id)).Nodup) →
      ∀ r ∈ rs, mapGet (rs.foldl (fun m r => mapSet m r.id r) m) r.id = some r := by
  induction rs with
  | nil => intro m _ r hr; simp at hr
  | cons a t ih =>
    intro m hnd r hr
    rw [List.map_cons, List.nodup_cons] at hnd
    rw [List.foldl_cons]
    rcases List.mem_cons.mp hr with rfl | hrt
    · have hta : ∀ x ∈ t, x.id ≠ r.id := by
        intro x hx hxa
        exact hnd.1 (hxa ▸ List.mem_map_of_mem (fun r => r.id) hx)
      rw [foldl_mapSet_not_mem t (mapSet m r.id r) r.id hta]
      exact mapGet_mapSet_self m r.id r
    · exact ih (mapSet m a.id a) hnd.2 r hrt

theorem jsFindIndex_eq_none (p : Recipe → Bool) (l : List Recipe)
    (h : jsFindIndex p l = none) : ∀ x ∈ l, p x = false := by
  induction l with
  | nil => intro x hx; simp at hx
  | cons a t ih =>
    intro x hx
    by_cases hp : p a
    · simp [jsFindIndex, hp] at h
    · rcases List.mem_cons.mp hx with rfl | hxt
      · exact Bool.not_eq_true _ ▸ hp
      · have ht : jsFindIndex p t = none := by
          simp only [jsFindIndex, hp, if_false, Bool.false_eq_true] at h
          cases hfj : jsFindIndex p t with
          | none => rfl
          | some j => rw [hfj] at h; simp at h
        exact ih ht x hxt

/-! ## Preservation of the no-drift invariant -/

theorem inv_set_of_found (l : List Recipe) :
    ∀ (m : List (Int × Recipe)) (i : Nat) (e : Recipe),
      jsFindIndex (fun r => r.id = e.id) l = some i →
      ((l.map (fun r => r.id)).Nodup) →
      (∀ x ∈ l, mapGet m x.id = some x) →
      (∀ x ∈ l.set i e, mapGet (mapSet m e.id e) x.id = some x) ∧
        (((l.set i e).map (fun r => r.id)).Nodup) := by
  induction l with
  | nil => intro m i e hfind _ _; simp [jsFindIndex] at hfind
  | cons a t ih =>
    intro m i e hfind hnd hinv
    rw [List.map_cons, List.nodup_cons] at hnd
    by_cases ha : a.id = e.id
    · have hi : i = 0 := by
        simp only [jsFindIndex, ha, decide_True, if_true] at hfind
        exact (Option.some.injEq _ _ ▸ hfind).symm
      subst hi
      constructor
      · intro x hx
        rcases List.mem_cons.mp hx with rfl | hxt
        · exact mapGet_mapSet_self m x.id x
        · have hne : x.id ≠ e.id := by
            intro hxe
            exact hnd.1 (ha ▸ hxe ▸ List.mem_map_of_mem (fun r => r.id) hxt)
          rw [mapGet_mapSet_ne m e.id e x.id hne]
          exact hinv x (List.mem_cons_of_mem a hxt)
      · rw [List.set_cons_zero, List.map_cons, List.nodup_cons]
        exact ⟨ha ▸ hnd.1, hnd.2⟩
    · have hfind' : ∃ j, jsFindIndex (fun r => r.id = e.id) t = some j ∧ i = j + 1 := by
        simp only [jsFindIndex, ha, decide_False, if_false, Bool.false_eq_true] at hfind
        cases hfj : jsFindIndex (fun r => r.id = e.id) t with
        | none => rw [hfj] at hfind; simp at hfind
        | some j =>
          rw [hfj] at hfind
          simp at hfind
          exact ⟨j, rfl, hfind.symm⟩
      obtain ⟨j, hj, rfl⟩ := hfind'
      have htail := ih m j e hj hnd.2 (fun x hx => hinv x (List.mem_cons_of_mem a hx))
      constructor
      · intro x hx
        rw [List.set_cons_succ] at hx
        rcases List.mem_cons.mp hx with rfl | hxt
        · rw [mapGet_mapSet_ne m e.id e x.id ha]
          exact hinv x (List.mem_cons_self x t)
        · exact htail.1 x hxt
      · rw [List.set_cons_succ, List.map_cons, List.nodup_cons]
        refine ⟨?_, htail.2⟩
        intro hmem
        obtain ⟨y, hy, hyid⟩ := List.mem_map.mp hmem
        rcases List.mem_or_eq_of_mem_set hy with hyt | rfl
        · exact hnd.1 (hyid ▸ List.mem_map_of_mem (fun r => r.id) hyt)
        · exact ha hyid.symm

theorem good_setRecipe (s : RecipeStoreState) (e : Recipe) (hg : StoreGood s) :
    StoreGood (setRecipe s e) := by
  obtain ⟨hinv, hnd⟩ := hg
  unfold setRecipe
  cases hfind : jsFindIndex (fun r => r.id = e.id) s.recipeList with
  | some i =>
    have h := inv_set_of_found s.recipeList s.recipes i e hfind hnd hinv
    exact ⟨fun r hr => h.1 r hr, h.2⟩
  | none =>
    have hall : ∀ x ∈ s.recipeList, (x.id = e.id) = False := by
      intro x hx
      have := jsFindIndex_eq_none (fun r => r.id = e.id) s.recipeList hfind x hx
      simpa using this
    constructor
    · intro r hr
      rcases List.mem_cons.mp hr with rfl | hrt
      · exact mapGet_mapSet_self s.recipes r.id r
      · have hne : r.id ≠ e.id := by
          intro hre
          rw [hall r hrt] at hre
          exact hre
        show mapGet (mapSet s.recipes e.id e) r.id = some r
        rw [mapGet_mapSet_ne s.recipes e.id e r.id hne]
        exact hinv r hrt
    · rw [List.map_cons, List.nodup_cons]
      refine ⟨?_, hnd⟩
      intro hmem
      obtain ⟨y, hy, hyid⟩ := List.mem_map.mp hmem
      have := hall y hy
      rw [hyid] at this
      simp at this

theorem good_setRecipes (s : RecipeStoreState) (rs : List Recipe)
    (hnd : (rs.map (fun r => r.id)).Nodup) : StoreGood (setRecipes s rs) := by
  constructor
  · intro r hr
    exact foldl_mapSet_nodup_mem rs s.recipes hnd r hr
  · exact hnd

theorem good_clearStore (s : RecipeStoreState) : StoreGood (clearStore s) := by
  constructor
  · intro r hr; simp [clearStore] at hr
  · simp [clearStore]

theorem good_initial : StoreGood initialStoreState := by
  constructor
  · intro r hr; simp [initialStoreState] at hr
  · simp [initialStoreState]

theorem good_foldl (ops : List CacheOp) :
    ∀ s, StoreGood s → ManyOpsNodup ops → StoreGood (ops.foldl applyOp s) := by
  induction ops with
  | nil => intro s hs _; exact hs
  | cons op rest ih =>
    intro s hs hops
    rw [List.foldl_cons]
    have hrest : ManyOpsNodup rest := by
      intro rs hmem
      exact hops rs (List.mem_cons_of_mem op hmem)
    refine ih (applyOp s op) ?_ hrest
    cases op with
    | upsertOne r => exact good_setRecipe s r hs
    | upsertMany rs => exact good_setRecipes s rs (hops rs (List.mem_cons_self _ _))
    | clearAll => exact good_clearStore s

/-! ## Claim C4 -/

/-- C4: for every cache state and entity `e`, after `upsertOne(e)` (`setRecipe`)
`getOne(e.id)` returns exactly `e` and `hasOne(e.id)` is true; when an element
with id `e.id` is present at index `i` the list is unchanged except that the
element at `i` is now `e` (length unchanged), otherwise `e` is inserted at
index 0 and the length grows by exactly one — so the length increases by at
most one. -/
theorem c4_upsertOne_point_update (s : RecipeStoreState) (e : Recipe) :
    getRecipe (setRecipe s e) e.id = some e ∧
    hasRecipe (setRecipe s e) e.id = true ∧
    (match jsFindIndex (fun r => r.id = e.id) s.recipeList with
     | some i =>
       (setRecipe s e).recipeList = s.recipeList.set i e ∧
       (setRecipe s e).recipeList.length = s.recipeList.length
     | none =>
       (setRecipe s e).recipeList = e :: s.recipeList ∧
       (setRecipe s e).recipeList.length = s.recipeList.length + 1) := by
  have hget : getRecipe (setRecipe s e) e.id = some e := by
    unfold getRecipe setRecipe
    cases jsFindIndex (fun r => r.id = e.id) s.recipeList with
    | some i => exact mapGet_mapSet_self s.recipes e.id e
    | none => exact mapGet_mapSet_self s.recipes e.id e
  have hhas : hasRecipe (setRecipe s e) e.id = true := by
    unfold hasRecipe setRecipe
    cases jsFindIndex (fun r => r.id = e.id) s.recipeList with
    | some i => rw [mapHas_eq_isSome, mapGet_mapSet_self]; rfl
    | none => rw [mapHas_eq_isSome, mapGet_mapSet_self]; rfl
  refine ⟨hget, hhas, ?_⟩
  cases hfind : jsFindIndex (fun r => r.id = e.id) s.recipeList with
  | some i =>
    refine ⟨?_, ?_⟩
    · unfold setRecipe
      rw [hfind]
    · unfold setRecipe
      rw [hfind]
      exact List.length_set s.recipeList i e
  | none =>
    refine ⟨?_, ?_⟩
    · unfold setRecipe
      rw [hfind]
    · unfold setRecipe
      rw [hfind]
      exact List.length_cons e s.recipeList

/-! ## Claim C3 -/

/-- C3 (amended): after `upsertMany(S)` (`setRecipes`), `orderedList` equals
`S` exactly and every id present before the call but not occurring in `S`
keeps its prior `getOne` value — both for arbitrary `S`; and when the ids of
`S` are pairwise distinct, every element of `S` is retrievable via `getOne`
by its id.  (For inputs carrying two entities with the same id, `getOne`
returns the last occurrence, so an earlier occurrence is not retrievable.) -/
theorem c3_upsertMany_replace_list (s : RecipeStoreState) (S : List Recipe) :
    (setRecipes s S).recipeList = S ∧
    (∀ k : Int, k ∉ S.map (fun r => r.id) → getRecipe (setRecipes s S) k = getRecipe s k) ∧
    ((S.map (fun r => r.id)).Nodup → ∀ r ∈ S, getRecipe (setRecipes s S) r.id = some r) := by
  refine ⟨rfl, ?_, ?_⟩
  · intro k hk
    show mapGet (S.foldl (fun m r => mapSet m r.id r) s.recipes) k = mapGet s.recipes k
    refine foldl_mapSet_not_mem S s.recipes k ?_
    intro r hr hrk
    exact hk (hrk ▸ List.mem_map_of_mem (fun r => r.id) hr)
  · intro hnd r hr
    exact foldl_mapSet_nodup_mem S s.recipes hnd r hr

/-- C3 counterexample: with the duplicate-id input `[rMojito, rMojitoV2]`
(both id 1), the element `rMojito` of the input is not retrievable via
`getOne` by its id — `getOne(1)` returns the later occurrence. -/
theorem c3_counterexample_duplicate_ids :
    ¬ (∀ r ∈ [rMojito, rMojitoV2],
        getRecipe (setRecipes initialStoreState [rMojito, rMojitoV2]) r.id = some r) := by
  decide

/-- C3 witness: a concrete instance of the amended statement. -/
theorem c3_upsertMany_witness :
    (setRecipes (setRecipe initialStoreState rMojito) [rMargarita]).recipeList = [rMargarita] ∧
    getRecipe (setRecipes (setRecipe initialStoreState rMojito) [rMargarita]) 1
      = getRecipe (setRecipe initialStoreState rMojito) 1 ∧
    getRecipe (setRecipes (setRecipe initialStoreState rMojito) [rMargarita]) rMargarita.id
      = some rMargarita := by
  obtain ⟨h1, h2, h3⟩ := c3_upsertMany_replace_list (setRecipe initialStoreState rMojito) [rMargarita]
  exact ⟨h1, h2 1 (by decide), h3 (by decide) rMargarita (by decide)⟩

/-! ## Claim C1 -/

/-- C1 (amended): for every sequence of cache operations applied to the
initially empty cache in which every `upsertMany` input has pairwise-distinct
ids, the no-drift invariant holds after each operation: every entity in
`orderedList` has a `byId` entry under its id with identical content.  (The
unrestricted claim fails for an `upsertMany` input containing two entities
with the same id, see the counterexample.) -/
theorem c1_no_drift_invariant (ops : List CacheOp) (h : ManyOpsNodup ops) :
    ∀ r ∈ (runOps ops).recipeList, getRecipe (runOps ops) r.id = some r :=
  (good_foldl ops initialStoreState good_initial h).1

/-- C1 counterexample: an `upsertMany` whose input holds two entities with the
same id leaves `orderedList` containing the first occurrence while `byId` maps
the shared id to the second — the two views drift immediately after the
operation completes. -/
theorem c1_counterexample_duplicate_ids :
    ¬ (∀ r ∈ (runOps [CacheOp.upsertMany [rMojito, rMojitoV2]]).recipeList,
        getRecipe (runOps [CacheOp.upsertMany [rMojito, rMojitoV2]]) r.id = some r) := by
  decide

/-- C1 witness: a concrete operation sequence satisfying the distinct-ids
condition, instantiating the invariant at an element of the resulting list. -/
theorem c1_no_drift_witness :
    getRecipe (runOps [CacheOp.upsertMany [rMojito, rMargarita], CacheOp.upsertOne rMojitoV2])
        rMojitoV2.id = some rMojitoV2 :=
  c1_no_drift_invariant [CacheOp.upsertMany [rMojito, rMargarita], CacheOp.upsertOne rMojitoV2]
    (by
      intro rs hmem
      rcases List.mem_cons.mp hmem with h | h
      · injection h with h2
        subst h2
        decide
      · rcases List.mem_cons.mp h with h' | h'
        · exact CacheOp.noConfusion h'
        · simp at h')
    rMojitoV2 (by decide)

/-! ## Claim C7 -/

/-- C7 (amended): after `clear()` on any persisted store state, `hasOne` is
false for every id and `orderedList` is empty; the durable snapshot is
overwritten with the serialized empty state (the storage entry remains, holding
the empty snapshot, rather than being removed); and a second `clear()` leaves
both the in-memory state and the durable storage unchanged. -/
theorem c7_clear_empties_and_overwrites (ps : PersistedStore) :
    (∀ id : Int, hasRecipe (doClear ps).mem id = false) ∧
    (doClear ps).mem.recipeList = [] ∧
    (doClear ps).storage = some (encodeStoreState initialStoreState) ∧
    doClear (doClear ps) = doClear ps := by
  refine ⟨fun id => rfl, rfl, rfl, rfl⟩

/-- C7 counterexample: `clear()` does not erase the durable snapshot — after
clearing a populated store the storage entry still holds a snapshot (of the
empty state) instead of being removed. -/
theorem c7_counterexample_snapshot_not_erased :
    (doClear { mem := setRecipe initialStoreState rMojito,
               storage := persistWrite (setRecipe initialStoreState rMojito) }).storage
      ≠ none := by
  simp [doClear, persistWrite]

/-! ## Claim C10 -/

/-- C10: a client constructed from the config-object overload is observably
equivalent to one constructed from the positional overload — the stored state
is identical, and every operation (represented by `getRecipeById`) issues the
same request and produces the same result for every transport response. -/
theorem c10_constructor_overloads_equivalent (N : Type) (b : String) (nc : N)
    (tok : Option String) :
    mixrClientFromConfig { baseUrl := b, networkClient := nc, authToken := tok }
       = mixrClientPositional b nc tok ∧
    (∀ (id : Int) (resp : NetworkResponse),
      getRecipeByIdOp (mixrClientFromConfig
          { baseUrl := b, networkClient := nc, authToken := tok }) id resp
        = getRecipeByIdOp (mixrClientPositional b nc tok) id resp) :=
  ⟨rfl, fun _ _ => rfl⟩

/-! ## Claim C5 -/

/-- C5: evaluation of the header computation at a client holding a token.  The
call `createHeaders(\x7b\x7d, this.authToken)` passes the token to a function that
declares a single parameter, so the headers of every outgoing request are the
constant record `Content-Type: application/json` — identical with and without a
configured token, and `setAuthToken` changes the stored token without changing
the headers of subsequent requests. -/
theorem c5_token_dropped_from_headers :
    mixrClientHeaders (some "secret-token") = [("Content-Type", "application/json")] ∧
    mixrClientHeaders (some "secret-token") = mixrClientHeaders none ∧
    (setAuthToken (mixrClientPositional "https://api.example.com" (0 : Nat) none)
        (some "secret-token")).authToken = some "secret-token" ∧
    mixrClientHeaders
        ((setAuthToken (mixrClientPositional "https://api.example.com" (0 : Nat) none)
          (some "secret-token")).authToken)
      = [("Content-Type", "application/json")] := by
  refine ⟨rfl, rfl, rfl, rfl⟩

/-! ## Claim C9 -/

/-- C9: `FetchNetworkClient.request` is total over fetch behaviours; for an
ordinary HTTP response the result has `ok` true exactly when the status is in
the 2xx range, the `error` field absent, the parsed body as `data` and the
response status preserved; and whenever `fetch` itself or the body handling
throws an `Error`, the exception is caught and converted into a result with
`ok` false, status 500, and the exception's message as the `error` field. -/
theorem c9_request_never_raises (status : Nat) (statusText : String)
    (hdrs : List (String × String)) (d : JVal) (m : String) :
    ((fetchRequest (.resp status statusText hdrs (.ok d))).ok
        = (200 ≤ status && status ≤ 299) ∧
     (fetchRequest (.resp status statusText hdrs (.ok d))).error = none ∧
     (fetchRequest (.resp status statusText hdrs (.ok d))).data = some d ∧
     (fetchRequest (.resp status statusText hdrs (.ok d))).status = status) ∧
    (fetchRequest (.thrown (.errorObj m)) =
      { ok := false, status := 500, statusText := "Internal Server Error",
        headers := [], success := false, data := none, error := some m,
        timestamp := "" }) ∧
    (fetchRequest (.resp status statusText hdrs (.error (.errorObj m))) =
      { ok := false, status := 500, statusText := "Internal Server Error",
        headers := [], success := false, data := none, error := some m,
        timestamp := "" }) :=
  ⟨⟨rfl, rfl, rfl, rfl⟩, rfl, rfl⟩

/-! ## Claim C6 -/

/-- C6 counterexample: `getRecipeById` applied to a transport result with
`ok = true` and a present (but JS-falsy) `data` field of `0` throws, although
the claim as stated says an operation throws exactly when `ok` is false or
`data` is absent. -/
theorem c6_counterexample_falsy_data :
    respDataZero.ok = true ∧ respDataZero.data ≠ none ∧
    exceptIsOk (getRecipeByIdResult respDataZero) = false := by
  refine ⟨rfl, ?_, rfl⟩
  simp [respDataZero]

/-- C6 (amended): every client operation (represented by `getRecipeById`)
throws exactly when the transport result has `ok` false or its `data` field
absent or JS-falsy, and otherwise returns the unwrapped payload; the thrown
message prefers the transport-level error string, then the payload's
server-provided error string, falling back to the generic
`Failed to <operation>` text, and always ends with the numeric status code —
in particular for status 404 the message includes `404`, and the `ok`-but-no-
`data` case produces a message distinct from the network-failure case. -/
theorem c6_error_handling (resp : NetworkResponse) :
    (exceptIsOk (getRecipeByIdResult resp) = (resp.ok && dataTruthy resp.data)) ∧
    ((resp.ok && dataTruthy resp.data) = true →
      getRecipeByIdResult resp = .ok (resp.data.getD .null)) ∧
    (∀ e, resp.error = some e → e ≠ "" →
      handleApiError resp "get recipe by id"
        = e ++ " (status: " ++ toString resp.status ++ ")") ∧
    (jsTruthyStr resp.error = false → ∀ e, dataErrorString resp.data = some e → e ≠ "" →
      handleApiError resp "get recipe by id"
        = e ++ " (status: " ++ toString resp.status ++ ")") ∧
    (jsTruthyStr resp.error = false → jsTruthyStr (dataErrorString resp.data) = false →
      handleApiError resp "get recipe by id"
        = "Failed to get recipe by id" ++ " (status: " ++ toString resp.status ++ ")") ∧
    (∃ pre, handleApiError resp "get recipe by id"
        = pre ++ " (status: " ++ toString resp.status ++ ")") ∧
    (resp.status = 404 → ∃ a b, handleApiError resp "get recipe by id" = a ++ "404" ++ b) ∧
    (handleApiError respNoData "get recipe by id"
        ≠ handleApiError respNetworkFailure "get recipe by id") ∧
    (exceptIsOk (getRecipeByIdResult respNoData) = false ∧
      exceptIsOk (getRecipeByIdResult respNetworkFailure) = false) := by
  refine ⟨?_, ?_, ?_, ?_, ?_, ?_, ?_, ?_, rfl, rfl⟩
  · cases hc : (resp.ok && dataTruthy resp.data) with
    | true => simp [getRecipeByIdResult, hc, exceptIsOk]
    | false => simp [getRecipeByIdResult, hc, exceptIsOk]
  · intro h
    simp [getRecipeByIdResult, h]
  · intro e he hne
    simp [handleApiError, he, jsTruthyStr, hne]
  · intro hf e he hne
    simp only [handleApiError, hf, he]
    simp [jsTruthyStr, hne]
  · intro hf1 hf2
    simp [handleApiError, hf1, hf2]
  · exact ⟨_, rfl⟩
  · intro h404
    refine ⟨(if jsTruthyStr resp.error then resp.error.getD ""
             else if jsTruthyStr (dataErrorString resp.data) then (dataErrorString resp.data).getD ""
             else "Failed to " ++ "get recipe by id") ++ " (status: ", ")", ?_⟩
    rw [handleApiError, h404]
    rw [show toString (404 : Nat) = "404" from by decide]
  · decide

/-- C6 witness: the amended statement instantiated at a concrete 404 response
carrying a server-provided error string. -/
theorem c6_error_handling_witness :
    exceptIsOk (getRecipeByIdResult resp404) = false ∧
    handleApiError resp404 "get recipe by id"
      = "Resource not found" ++ " (status: " ++ toString (404 : Nat) ++ ")" ∧
    (∃ a b, handleApiError resp404 "get recipe by id" = a ++ "404" ++ b) := by
  obtain ⟨h1, _, _, hd, _, _, hg, _, _⟩ := c6_error_handling resp404
  refine ⟨h1.trans (by decide), ?_, hg rfl⟩
  exact hd rfl "Resource not found" rfl (by decide)

/-! ## Claim C2 -/

/-- C2: evaluation of the serialize/restore cycle at the failing input — the
empty cache.  The replacer turns the empty `Map` into `[]`; the reviver's
`value.length > 0` guard skips empty arrays, so the restored `recipes` field is
the plain array `[]` rather than a `Map`, and both point lookups and membership
checks on the restored state throw a `TypeError` instead of agreeing with the
pre-serialization state (`getOne = none`, `hasOne = false`).  A one-entry
cache, by contrast, restores its `Map` correctly — the defect is specific to
the zero-entry mapping the claim explicitly includes. -/
theorem c2_empty_cache_roundtrip_fails :
    restoredRecipesField (encodeStoreState initialStoreState) = some (JVal.arr []) ∧
    restoredRecipeListField (encodeStoreState initialStoreState) = some (JVal.arr []) ∧
    jvalGet (JVal.arr []) 1 = .error "TypeError: state.recipes.get is not a function" ∧
    jvalHas (JVal.arr []) 1 = .error "TypeError: state.recipes.has is not a function" ∧
    getRecipe initialStoreState 1 = none ∧
    hasRecipe initialStoreState 1 = false ∧
    restoredRecipesField (encodeStoreState (setRecipe initialStoreState rMargarita))
      = some (JVal.map [(2, jsonToJVal (encodeRecipe rMargarita))]) := by
  refine ⟨?_, ?_, rfl, rfl, rfl, rfl, ?_⟩
  · simp [restoredRecipesField, restoredStateFields, encodeStoreState, initialStoreState,
      revive, reviveList, reviveFields, reviveArr, jGetField]
  · simp [restoredRecipeListField, restoredStateFields, encodeStoreState, initialStoreState,
      revive, reviveList, reviveFields, reviveArr, jGetField]
  · simp [restoredRecipesField, restoredStateFields, encodeStoreState, initialStoreState,
      setRecipe, jsFindIndex, mapSet, encodeRecipe, encodeOptStr, rMargarita,
      revive, reviveList, reviveFields, reviveArr, isArrVal, toEntries, jGetField,
      jsonToJVal, jsonToJValList, jsonToJValFields]

/-! ## Claim C8 -/

/-- C8: after a lazy restore from the durable snapshot of the empty cache, the
restored `recipes` field is a plain array, and `getOne` — which evaluates
`state.recipes.get(id)` — throws a `TypeError` instead of returning the
not-found sentinel. -/
theorem c8_getOne_throws_after_empty_restore :
    ∃ rv, restoredRecipesField (encodeStoreState initialStoreState) = some rv ∧
      jvalGet rv 1 = .error "TypeError: state.recipes.get is not a function" := by
  refine ⟨JVal.arr [], ?_, rfl⟩
  simp [restoredRecipesField, restoredStateFields, encodeStoreState, initialStoreState,
    revive, reviveList, reviveFields, reviveArr, jGetField]
